import Mathlib

/-!
# Verification of the ghl-client core: retry, OAuth token refresh, pipeline cache

Shallow embedding of the retry/backoff executor (`src/utils/retry.ts`), the
OAuth token lifecycle (`src/client.ts`, `src/auth/oauth-client.ts`), the HTTP
transport error construction (`src/utils/http.ts`), and the pipeline cache
(`src/resources/opportunities.ts`), together with theorems settling the
frozen claims about them.

JavaScript conventions modelled explicitly:
* optional / possibly-`undefined` fields become `Option`;
* JS truthiness on strings (`""` is falsy) and numbers (`0` is falsy) is
  modelled by dedicated `strTruthy` / `natTruthy` helpers;
* `Date.now()` becomes an explicit `now : Nat` parameter (epoch ms);
* async operations become invocation-indexed pure functions returning
  `Except`, and the concurrent single-flight guard of `ensureValidToken`
  becomes a small-step labelled transition system over caller tasks.
-/

namespace GhlClient

/-- JS truthiness of an optional string: `undefined` and `""` are falsy. -/
def strTruthy : Option String → Bool
  | none => false
  | some s => s ≠ ""

/-- JS truthiness of an optional number: `undefined` and `0` are falsy. -/
def natTruthy : Option Nat → Bool
  | none => false
  | some n => n ≠ 0

/-- JS `a || b` on optional strings: yields `a` when truthy, else `b`. -/
def jsOrS (a b : Option String) : Option String :=
  if strTruthy a then a else b

/-! ## Auth data model (`src/auth/types.ts`, fields as used by `src/client.ts`) -/

/-- OAuth credential. The `onTokenRefresh` callback is modelled by an opaque
identity (`Option Nat`); its invocations are recorded in a log. -/
structure OAuthAuth where
  accessToken : String
  refreshToken : Option String
  expiresAt : Option Nat
  clientId : Option String
  clientSecret : Option String
  redirectUri : Option String
  onTokenRefresh : Option Nat
  deriving DecidableEq, Repr

/-- `AuthConfig = ApiKeyAuth | OAuthAuth` tagged union. -/
inductive AuthConfig where
  | apiKey (key : String)
  | oauth (o : OAuthAuth)
  deriving DecidableEq, Repr

/-- `isOAuthAuth` type guard. -/
def isOAuthAuth : AuthConfig → Bool
  | .oauth _ => true
  | .apiKey _ => false

/-! ## Token expiry predicates -/

/-- `OAuthClient.isTokenExpired` (`src/auth/oauth-client.ts:162`):
`now >= expiresAt - bufferSeconds * 1000`, over JS numbers (modelled in `Int`
so that the subtraction may go negative). -/
def oauthClientIsTokenExpired (now expiresAt : Nat) (bufferSeconds : Nat := 300) : Bool :=
  decide ((expiresAt : Int) - (bufferSeconds : Int) * 1000 ≤ (now : Int))

/-- `GHLClient.isTokenExpired` (`src/client.ts:190`): `false` unless the auth
is OAuth with a truthy `expiresAt`; otherwise `Date.now() >= expiresAt - 5*60*1000`. -/
def clientIsTokenExpired (now : Nat) (auth : AuthConfig) : Bool :=
  match auth with
  | .apiKey _ => false
  | .oauth o =>
    if natTruthy o.expiresAt = false then false
    else
      match o.expiresAt with
      | none => false
      | some e => decide ((e : Int) - 5 * 60 * 1000 ≤ (now : Int))

/-! ## Backoff calculator and retry executor (`src/utils/retry.ts`) -/

/-- `calculateDelay` (`src/utils/retry.ts:33`):
`min(initialDelay * base ^ (attempt - 1), maxDelay)`. -/
def calculateDelay (attempt initialDelay exponentialBase maxDelay : Nat) : Nat :=
  min (initialDelay * exponentialBase ^ (attempt - 1)) maxDelay

/-- Resolved retry configuration (after merging with `DEFAULT_RETRY_CONFIG`). -/
structure RetryConfigL (ε : Type) where
  maxRetries : Nat
  initialDelay : Nat
  maxDelay : Nat
  exponentialBase : Nat
  shouldRetry : ε → Nat → Bool
  deriving Inhabited

/-- Trace of one `withRetry` run: final result, number of invocations of the
operation, and the `(error, retryCounter, delay)` triples passed to `onRetry`
(in order; each is immediately followed by a sleep of the given delay). -/
structure RetryTrace (ε α : Type) where
  result : Except ε α
  calls : Nat
  onRetryLog : List (ε × Nat × Nat)
  deriving Repr

/-- The loop body of `withRetry` (`src/utils/retry.ts:76`). `attempt` is the
1-based loop counter; `rem = maxRetries + 1 - attempt` is the number of
attempts remaining after this one (`rem = 0` iff `isLastAttempt`). The
operation is invocation-indexed (`fn attempt`), so each invocation may
behave differently. -/
def withRetryLoop (fn : Nat → Except ε α) (cfg : RetryConfigL ε) :
    (attempt rem : Nat) → (lastErr : Option ε) → (log : List (ε × Nat × Nat)) →
    RetryTrace ε α
  | attempt, rem, lastErr, log =>
    -- wait before retry (skip on first attempt); `onRetry` then `sleep`
    let log' :=
      if 1 < attempt then
        match lastErr with
        | some e =>
          log ++ [(e, attempt - 1,
            calculateDelay (attempt - 1) cfg.initialDelay cfg.exponentialBase cfg.maxDelay)]
        | none => log
      else log
    match fn attempt with
    | .ok a => ⟨.ok a, attempt, log'⟩
    | .error e =>
      match rem with
      | 0 => ⟨.error e, attempt, log'⟩       -- isLastAttempt: rethrow
      | rem' + 1 =>
        if cfg.shouldRetry e attempt = false then ⟨.error e, attempt, log'⟩
        else withRetryLoop fn cfg (attempt + 1) rem' (some e) log'

/-- `withRetry` (`src/utils/retry.ts:61`) with a resolved configuration. -/
def withRetryModel (fn : Nat → Except ε α) (cfg : RetryConfigL ε) : RetryTrace ε α :=
  withRetryLoop fn cfg 1 cfg.maxRetries none []

/-! ## HTTP transport errors (`src/utils/http.ts`) -/

/-- `HttpClientError` fields relevant to retry/refresh decisions. `statusCode`
and `retryAfter` are optional (JS `undefined`); `retryAfter` is in `Int`
because a negative integer `Retry-After` header survives multiplication. -/
structure HttpClientError where
  message : String
  statusCode : Option Nat
  shouldRetry : Bool
  retryAfter : Option Int
  deriving DecidableEq, Repr

/-- The content of a `Retry-After` response header as the JS parser sees it:
absent, parses as an integer via `parseInt` (any leading-integer string),
parses as a `Date` (non-integer-prefixed HTTP date, `t` its epoch ms), or
neither. -/
inductive RetryAfterHeader where
  | absent
  | intVal (n : Int)
  | dateVal (t : Int)
  | unparsable
  deriving DecidableEq, Repr

/-- `Retry-After` computation for a 429 inside `HttpClient.parseResponse`
(`src/utils/http.ts:244`): integer header → seconds × 1000; date header →
`Math.max(0, date - now)`; then `if (!retryAfter) retryAfter = 1000` — a JS
truthiness check, so `undefined` *and a computed value of `0`* both fall back
to 1000 ms. -/
def computeRetryAfter (h : RetryAfterHeader) (now : Int) : Int :=
  let ra : Option Int :=
    match h with
    | .absent => none
    | .unparsable => none
    | .intVal n => some (n * 1000)
    | .dateVal t => some (max 0 (t - now))
  match ra with
  | some v => if v = 0 then 1000 else v
  | none => 1000

/-- The `HttpClientError` thrown by `HttpClient.parseResponse`
(`src/utils/http.ts:229`) for a non-ok response with the given status:
`shouldRetry = !isAuthError && (status >= 500 || isRateLimited)`, and
`retryAfter` computed only for 429. (The message is irrelevant to the claims;
we keep the status-derived fallback form.) -/
def parseResponseError (status : Nat) (h : RetryAfterHeader) (now : Int) : HttpClientError :=
  let isAuthError := status = 401 ∨ status = 403
  let isRateLimited := status = 429
  { message := s!"HTTP {status}"
    statusCode := some status
    shouldRetry := decide (¬isAuthError ∧ (500 ≤ status ∨ isRateLimited))
    retryAfter := if isRateLimited then some (computeRetryAfter h now) else none }

/-- The error `HttpClient.handleError` (`src/utils/http.ts:297`) produces for
an `AbortError`/`TimeoutError`: retryable, no status code. -/
def timeoutError : HttpClientError :=
  { message := "Request timeout", statusCode := none, shouldRetry := true, retryAfter := none }

/-- The error `HttpClient.handleError` produces for any other thrown `Error`
(e.g. a plain network failure from `fetch`): **not** flagged retryable, no
status code. -/
def networkError (msg : String) : HttpClientError :=
  { message := msg, statusCode := none, shouldRetry := false, retryAfter := none }

/-- Errors flowing through the client: typed transport errors, schema
validation errors, and plain `Error`s (refresh failures etc.). -/
inductive GHLError where
  | http (e : HttpClientError)
  | validation (msg : String)
  | generic (msg : String)
  deriving DecidableEq, Repr

/-- JS `error?.statusCode` access. -/
def GHLError.statusCode : GHLError → Option Nat
  | .http e => e.statusCode
  | _ => none

/-- JS `error?.shouldRetry === true` access (fields absent on non-transport
errors read as `undefined`, hence `false`). -/
def GHLError.shouldRetryFlag : GHLError → Bool
  | .http e => e.shouldRetry
  | _ => false

/-- The default `shouldRetry` predicate of `DEFAULT_RETRY_CONFIG`
(`src/utils/retry.ts:21`): `error?.shouldRetry === true || error?.statusCode >= 500`
(in JS, `undefined >= 500` is `false`). -/
def defaultShouldRetry (e : GHLError) (_attempt : Nat) : Bool :=
  e.shouldRetryFlag || (match e.statusCode with | some c => decide (500 ≤ c) | none => false)

/-! ## Token refresh (`GHLClient.refreshToken`, `src/client.ts:204`) -/

/-- JSON body of a successful token-endpoint response. -/
structure TokenResp where
  access_token : String
  refresh_token : Option String
  expires_in : Nat
  deriving DecidableEq, Repr

/-- One recorded invocation of the `onTokenRefresh` callback: callback
identity and the argument object `{accessToken, refreshToken, expiresAt}`.
`refreshToken` is kept optional to carry the exact JS value passed. -/
structure CallbackCall where
  callback : Nat
  accessToken : String
  refreshToken : Option String
  expiresAt : Nat
  deriving DecidableEq, Repr

/-- Client instance state relevant to the token lifecycle: the active
credential, whether `oauthClient` was initialized at construction, the log of
`onTokenRefresh` invocations, and a count of token-exchange requests actually
issued (calls to `oauthClient.refreshToken`). -/
structure ClientState where
  auth : AuthConfig
  oauthClientPresent : Bool
  callbackLog : List CallbackCall
  exchangeCount : Nat
  deriving DecidableEq, Repr

/-- The new credential built on a successful refresh (`src/client.ts:222`):
new access token, `newTokens.refresh_token || this.auth.refreshToken` (JS
`||`), `expiresAt = Date.now() + expires_in * 1000`, everything else carried
over. -/
def newAuthOf (old : OAuthAuth) (tk : TokenResp) (now : Nat) : OAuthAuth :=
  { accessToken := tk.access_token
    refreshToken := jsOrS tk.refresh_token old.refreshToken
    expiresAt := some (now + tk.expires_in * 1000)
    clientId := old.clientId
    clientSecret := old.clientSecret
    redirectUri := old.redirectUri
    onTokenRefresh := old.onTokenRefresh }

/-- The synchronous prefix of `refreshToken` (`src/client.ts:205`): the three
guard checks, in source order, before the token-exchange request is issued. -/
def refreshPrefix (st : ClientState) : Except String Unit :=
  match st.auth with
  | .apiKey _ => .error "Cannot refresh token: not using OAuth authentication"
  | .oauth o =>
    if st.oauthClientPresent = false then
      .error "Cannot refresh token: OAuth client not initialized"
    else if strTruthy o.refreshToken = false then
      .error "Cannot refresh token: no refresh token available"
    else .ok ()

/-- The continuation of `refreshToken` after the token-exchange request
settles with `res` (`src/client.ts:220`): on rejection the error propagates
with no state change; on success the new credential is swapped in and the
carried-over `onTokenRefresh` callback (if present) is invoked with
`(access_token, newTokens.refresh_token || this.auth.refreshToken, newAuth.expiresAt)`
— where `this.auth` has already been replaced by `newAuth`. -/
def refreshContinue (st : ClientState) (res : Except String TokenResp) (now : Nat) :
    Except String Unit × ClientState :=
  match res with
  | .error m => (.error m, st)
  | .ok tk =>
    match st.auth with
    | .oauth old =>
      let na := newAuthOf old tk now
      let log' :=
        match na.onTokenRefresh with
        | some c =>
          st.callbackLog ++
            [{ callback := c
               accessToken := tk.access_token
               refreshToken := jsOrS tk.refresh_token na.refreshToken
               expiresAt := now + tk.expires_in * 1000 }]
        | none => st.callbackLog
      (.ok (), { st with auth := .oauth na, callbackLog := log' })
    | .apiKey _ => (.ok (), st)   -- unreachable: guarded by refreshPrefix

/-- `GHLClient.refreshToken` run to completion with the token endpoint
responding `env`: guards, then one token-exchange request (counted), then the
continuation. -/
def refreshTokenModel (st : ClientState) (env : Except String TokenResp) (now : Nat) :
    Except String Unit × ClientState :=
  match refreshPrefix st with
  | .error m => (.error m, st)
  | .ok () =>
    refreshContinue { st with exchangeCount := st.exchangeCount + 1 } env now

/-- `GHLClient.ensureValidToken` (`src/client.ts:255`) for the sequential
case, i.e. entered with no refresh in flight (`tokenRefreshPromise`
undefined); the in-flight promise is set and then cleared in `finally`
within the call, so the state carries no handle. (The concurrent case, where
the handle is observable, is the labelled transition system below.) -/
def ensureValidTokenSeq (st : ClientState) (env : Except String TokenResp) (now : Nat) :
    Except String Unit × ClientState :=
  if isOAuthAuth st.auth = false then (.ok (), st)
  else if clientIsTokenExpired now st.auth = false then (.ok (), st)
  else refreshTokenModel st env now

/-! ## Request dispatcher (`GHLClient.withRetry`, `src/client.ts:298`) -/

/-- One dispatch of the wrapped operation: through the retry executor when a
retry configuration is present, else a single direct invocation. The
operation is indexed by a global invocation counter starting after `offset`;
returns the result and the number of invocations consumed. -/
def clientDispatch (cfg? : Option (RetryConfigL GHLError)) (op : Nat → Except GHLError α)
    (offset : Nat) : Except GHLError α × Nat :=
  match cfg? with
  | some cfg =>
    let t := withRetryModel (fun n => op (offset + n)) cfg
    (t.result, t.calls)
  | none => (op (offset + 1), 1)

/-- `GHLClient.withRetry` (`src/client.ts:298`): ensure a valid token (outside
the try/catch — its failure propagates directly), dispatch, and on an error
with `statusCode === 401` while the auth is OAuth and `oauthClient` is
present, force one refresh and re-dispatch once; the second attempt's
failure (or the refresh failure) propagates unchanged. Returns the result,
the final client state, and the total number of operation invocations. -/
def clientWithRetry (st : ClientState) (cfg? : Option (RetryConfigL GHLError))
    (op : Nat → Except GHLError α) (env : Except String TokenResp) (now : Nat) :
    Except GHLError α × ClientState × Nat :=
  match ensureValidTokenSeq st env now with
  | (.error m, st') => (.error (.generic m), st', 0)
  | (.ok _, st') =>
    match clientDispatch cfg? op 0 with
    | (.ok a, n1) => (.ok a, st', n1)
    | (.error e, n1) =>
      if e.statusCode = some 401 ∧ isOAuthAuth st'.auth = true ∧
          st'.oauthClientPresent = true then
        match refreshTokenModel st' env now with
        | (.error m, st'') => (.error (.generic m), st'', n1)
        | (.ok _, st'') =>
          let (r2, n2) := clientDispatch cfg? op n1
          (r2, st'', n1 + n2)
      else (.error e, st', n1)

/-! ## Pipeline cache (`src/resources/opportunities.ts`) -/

/-- A pipeline stage (projection of the remote resource). -/
structure PipelineStage where
  id : String
  name : String
  deriving DecidableEq, Repr

/-- A pipeline with its ordered stage list. -/
structure Pipeline where
  id : String
  name : String
  stages : List PipelineStage
  deriving DecidableEq, Repr

/-- JS `Map` as an insertion-ordered association list. `Map.set` updates an
existing key in place (keeping its position) or appends a new binding. -/
def mapSet (m : List (String × β)) (k : String) (v : β) : List (String × β) :=
  if (m.find? (fun p => p.1 = k)).isSome then
    m.map (fun p => if p.1 = k then (k, v) else p)
  else m ++ [(k, v)]

/-- JS `Map.get`. -/
def mapGet (m : List (String × β)) (k : String) : Option β :=
  (m.find? (fun p => p.1 = k)).map (fun p => p.2)

/-- JS `Map.delete` (result map only). -/
def mapDelete (m : List (String × β)) (k : String) : List (String × β) :=
  m.filter (fun p => p.1 ≠ k)

/-- `PipelineCacheEntry` (`src/resources/opportunities.ts:20`). -/
structure PipelineCacheEntry where
  pipelines : List (String × Pipeline)
  timestamp : Nat
  deriving DecidableEq, Repr

/-- `CACHE_TTL = 60 * 60 * 1000` (`src/resources/opportunities.ts:31`). -/
def CACHE_TTL : Nat := 60 * 60 * 1000

/-- State of an `OpportunitiesResource`: the per-location cache plus a count
of pipeline fetches actually issued (calls to `getPipelines`). -/
structure OppState where
  pipelineCache : List (String × PipelineCacheEntry)
  fetchCount : Nat
  deriving DecidableEq, Repr

/-- The `Map<string, Pipeline>` built from the fetched pipeline list
(`src/resources/opportunities.ts:255`): keyed by `pipeline.id`, insertion
order = API response order. -/
def buildPipelinesMap (ps : List Pipeline) : List (String × Pipeline) :=
  ps.foldl (fun m p => mapSet m p.id p) []

/-- `loadPipelinesCache` (`src/resources/opportunities.ts:240`) with the
location id already resolved by `requireLocationId` and the fetch environment
`env` (the pipeline list the API would return): return a fresh-enough cached
entry without fetching, else fetch, build the map, and store it with the
current timestamp. -/
def loadPipelinesCacheModel (st : OppState) (locId : String) (now : Nat)
    (env : List Pipeline) : List (String × Pipeline) × OppState :=
  match mapGet st.pipelineCache locId with
  | some cached =>
    if now - cached.timestamp < CACHE_TTL then (cached.pipelines, st)
    else
      let m := buildPipelinesMap env
      (m, { pipelineCache := mapSet st.pipelineCache locId ⟨m, now⟩
            fetchCount := st.fetchCount + 1 })
  | none =>
    let m := buildPipelinesMap env
    (m, { pipelineCache := mapSet st.pipelineCache locId ⟨m, now⟩
          fetchCount := st.fetchCount + 1 })

/-- `clearPipelineCache` (`src/resources/opportunities.ts:308`): delete one
key, or empty the whole cache when no key is given. -/
def clearPipelineCacheModel (st : OppState) (locId : Option String) : OppState :=
  match locId with
  | some l => { st with pipelineCache := mapDelete st.pipelineCache l }
  | none => { st with pipelineCache := [] }

/-- `findStageByName` (`src/resources/opportunities.ts:281`): load (possibly
from cache), look up the pipeline, scan stages for a case-insensitive name
match. -/
def findStageByNameModel (st : OppState) (locationId pipelineId stageName : String)
    (now : Nat) (env : List Pipeline) : Option (String × String) × OppState :=
  let (m, st') := loadPipelinesCacheModel st locationId now env
  match mapGet m pipelineId with
  | none => (none, st')
  | some p =>
    match p.stages.find? (fun s => s.name.toLower = stageName.toLower) with
    | some s => (some (s.id, s.name), st')
    | none => (none, st')

/-! ## Concurrent `ensureValidToken`: labelled transition system

Two caller tasks (`A`, `B`) each perform one `ensureValidToken()` call on a
shared client instance. JavaScript's single-threaded event loop runs each
task atomically between `await` points, so a task advances in atomic
segments; the scheduler (the label list) chooses which task's next segment
runs, and a distinguished `resolve` label settles the pending token-exchange
request. Allowing arbitrary label orders is a superset of the real microtask
orders, so universally quantified theorems cover every real schedule.

Program counters for one `ensureValidToken` call:
* `start`      — call made, first synchronous segment not yet run;
* `awaitOwn`   — this task started the refresh: it set `tokenRefreshPromise`
                 and is awaiting it inside the `try`/`finally`;
* `awaitShared`— this task found `tokenRefreshPromise` set and is awaiting
                 the same promise (`src/client.ts:265`);
* `done r`     — the call returned (`.ok`) or threw (`.error`). -/

inductive PC where
  | start
  | awaitOwn
  | awaitShared
  | done (r : Except String Unit)
  deriving Repr

/-- The two caller tasks. -/
inductive Who where
  | A
  | B
  deriving DecidableEq, Repr

/-- Scheduler labels: run one task's next segment, or settle the pending
token-exchange request. -/
inductive SysLabel where
  | run (w : Who)
  | resolve
  deriving DecidableEq, Repr

/-- Shared system state: client state, the `tokenRefreshPromise` handle
(`handle`), whether a token-exchange request is in flight (`pending`), the
settled value of the refresh promise once known (`promiseResult`), and each
task's program counter. -/
structure Sys where
  cs : ClientState
  handle : Bool
  pending : Bool
  promiseResult : Option (Except String Unit)
  pcA : PC
  pcB : PC
  deriving Repr

/-- Task `w`'s program counter. -/
def Sys.pc (s : Sys) : Who → PC
  | .A => s.pcA
  | .B => s.pcB

/-- Replace task `w`'s program counter. -/
def Sys.setPC (s : Sys) : Who → PC → Sys
  | .A, p => { s with pcA := p }
  | .B, p => { s with pcB := p }

/-- The first atomic segment of `ensureValidToken` (`src/client.ts:255`):
runs synchronously up to the first `await`. A non-OAuth credential or an
unexpired token returns immediately; a set handle routes to `awaitShared`;
otherwise this task becomes the starter: `refreshToken()` is invoked (its
synchronous guard prefix runs now — a guard failure leaves the promise
already rejected; otherwise the token-exchange request goes out), the
returned promise is stored in `tokenRefreshPromise`, and the task awaits it. -/
def runStart (w : Who) (now : Nat) (s : Sys) : Sys :=
  if isOAuthAuth s.cs.auth = false then s.setPC w (.done (.ok ()))
  else if clientIsTokenExpired now s.cs.auth = false then s.setPC w (.done (.ok ()))
  else if s.handle then s.setPC w .awaitShared
  else
    match refreshPrefix s.cs with
    | .error m =>
      { s.setPC w .awaitOwn with handle := true, promiseResult := some (.error m) }
    | .ok () =>
      { s.setPC w .awaitOwn with
          handle := true, pending := true,
          cs := { s.cs with exchangeCount := s.cs.exchangeCount + 1 } }

/-- One scheduler step. `run w`: execute task `w`'s next atomic segment (a
task awaiting an unsettled promise, or already done, does not move).
`resolve`: the token endpoint answers `env`; the continuation of
`refreshToken` (`src/client.ts:220`) runs, swapping in the new credential on
success, and the promise settles. The starter's resumption runs the
`finally`, clearing the handle before its call returns/throws; a shared
awaiter resumes without touching the handle. -/
def stepL (env : Except String TokenResp) (now : Nat) (l : SysLabel) (s : Sys) : Sys :=
  match l with
  | .resolve =>
    if s.pending then
      let rc := refreshContinue s.cs env now
      { s with cs := rc.2, pending := false, promiseResult := some rc.1 }
    else s
  | .run w =>
    match s.pc w with
    | .start => runStart w now s
    | .awaitOwn =>
      match s.promiseResult with
      | some r => { s.setPC w (.done r) with handle := false }
      | none => s
    | .awaitShared =>
      match s.promiseResult with
      | some r => s.setPC w (.done r)
      | none => s
    | .done _ => s

/-- Run a schedule (label list) from a state. -/
def runSys (env : Except String TokenResp) (now : Nat) (ls : List SysLabel) (s : Sys) : Sys :=
  ls.foldl (fun s l => stepL env now l s) s

/-- Initial client state for the concurrency scenario: OAuth credential,
`oauthClient` initialized, no callbacks logged, no exchanges issued. -/
def cs0 (old : OAuthAuth) : ClientState :=
  { auth := .oauth old, oauthClientPresent := true, callbackLog := [], exchangeCount := 0 }

/-- Initial system state: both callers about to run their first segment, no
handle, nothing in flight. -/
def sys0 (old : OAuthAuth) : Sys :=
  { cs := cs0 old, handle := false, pending := false, promiseResult := none,
    pcA := .start, pcB := .start }

/-- The `Retry-After`-to-milliseconds derivation exactly as the spec words it
(for comparison against `computeRetryAfter`, which is translated from the
source): integer header = seconds × 1000; HTTP-date header = non-negative ms
until the date; absent or unparsable = 1000 ms. -/
def specRetryAfter (h : RetryAfterHeader) (now : Int) : Int :=
  match h with
  | .intVal n => n * 1000
  | .dateVal t => max 0 (t - now)
  | .absent => 1000
  | .unparsable => 1000

/-- The transport errors this client produces: status errors from
`parseResponse`, the timeout error, and the generic network-failure error
from `handleError`. -/
def IsTransportError (e : HttpClientError) : Prop :=
  (∃ s h now, e = parseResponseError s h now) ∨ e = timeoutError ∨
    ∃ msg, e = networkError msg

/-! ## Theorems -/

/-- **C5.** For every attempt ≥ 1 the backoff delay equals
`min(initialDelay × base^(attempt−1), maxDelay)`, a pure deterministic
function; with `initialDelay=100, base=2, maxDelay=250` the delays for
attempts 1..4 are 100, 200, 250, 250. -/
theorem claim_C5_backoff_delay :
    (∀ attempt i b m : Nat, 1 ≤ attempt →
      calculateDelay attempt i b m = min (i * b ^ (attempt - 1)) m) ∧
    calculateDelay 1 100 2 250 = 100 ∧ calculateDelay 2 100 2 250 = 200 ∧
    calculateDelay 3 100 2 250 = 250 ∧ calculateDelay 4 100 2 250 = 250 :=
  ⟨fun _ _ _ _ _ => rfl, by decide, by decide, by decide, by decide⟩

/-- Witness for C5: the general formula applied at attempt 2 with the
example parameters. -/
theorem claim_C5_backoff_delay_witness :
    calculateDelay 2 100 2 250 = min (100 * 2 ^ (2 - 1)) 250 :=
  claim_C5_backoff_delay.1 2 100 2 250 (by decide)

/-- **C8.** The token-expiry predicate returns `true` iff
`now ≥ expiresAt − bufferSeconds × 1000` (e.g. with
`expiresAt = now + 240000` it is true for buffer 300 s and false for
buffer 180 s), and a credential with no recorded `expiresAt` — or a
non-OAuth credential — is never considered expired. -/
theorem claim_C8_token_expiry :
    (∀ now e b : Nat, oauthClientIsTokenExpired now e b = true ↔
      (e : Int) - (b : Int) * 1000 ≤ (now : Int)) ∧
    (∀ now : Nat, oauthClientIsTokenExpired now (now + 240000) 300 = true) ∧
    (∀ now : Nat, oauthClientIsTokenExpired now (now + 240000) 180 = false) ∧
    (∀ now : Nat, ∀ k : String, clientIsTokenExpired now (.apiKey k) = false) ∧
    (∀ (now : Nat) (o : OAuthAuth), o.expiresAt = none →
      clientIsTokenExpired now (.oauth o) = false) := by
  refine ⟨fun now e b => ?_, fun now => ?_, fun now => ?_, fun now k => rfl,
    fun now o h => ?_⟩
  · simp [oauthClientIsTokenExpired]
  · simp only [oauthClientIsTokenExpired, decide_eq_true_eq]
    push_cast
    omega
  · simp only [oauthClientIsTokenExpired, decide_eq_false_iff_not]
    push_cast
    omega
  · simp [clientIsTokenExpired, natTruthy, h]

/-- Witness for C8: concrete instances of each hypothesis-bearing part. -/
theorem claim_C8_token_expiry_witness :
    (oauthClientIsTokenExpired 1000000 1240000 300 = true ↔
      (1240000 : Int) - (300 : Int) * 1000 ≤ (1000000 : Int)) ∧
    clientIsTokenExpired 5
      (.oauth ⟨"at", none, none, none, none, none, none⟩) = false :=
  ⟨claim_C8_token_expiry.1 1000000 1240000 300,
   claim_C8_token_expiry.2.2.2.2 5 ⟨"at", none, none, none, none, none, none⟩ rfl⟩

/-- Counterexample to **C6** as stated: a plain (non-timeout) network failure
is a "network failure" the claim says the default predicate retries, but
`handleError` flags it non-retryable (`shouldRetry = false`, no status code),
so the default predicate returns `false` on it. -/
theorem claim_C6_counterexample :
    defaultShouldRetry (.http (networkError "fetch failed")) 1 = false := by
  decide

/-- **C6 (amended).** For every attempt, the default `shouldRetry` predicate,
applied to the typed transport errors this client produces, returns `true`
exactly when the transport layer flags the error retryable; the flagged set
is: HTTP 5xx responses, HTTP 429 responses, and timeout failures. A
non-timeout network failure is flagged non-retryable (so the predicate
returns `false` on it), and 401/403 responses get `false`. -/
theorem claim_C6_default_predicate :
    (∀ (e : HttpClientError) (a : Nat), IsTransportError e →
      defaultShouldRetry (.http e) a = e.shouldRetry) ∧
    (∀ (s : Nat) (h : RetryAfterHeader) (now : Int),
      (parseResponseError s h now).shouldRetry = decide (500 ≤ s ∨ s = 429)) ∧
    timeoutError.shouldRetry = true ∧
    (∀ msg, (networkError msg).shouldRetry = false) ∧
    (∀ (h : RetryAfterHeader) (now : Int) (a : Nat),
      defaultShouldRetry (.http (parseResponseError 401 h now)) a = false ∧
      defaultShouldRetry (.http (parseResponseError 403 h now)) a = false) := by
  have hflag : ∀ (s : Nat) (h : RetryAfterHeader) (now : Int),
      (parseResponseError s h now).shouldRetry = decide (500 ≤ s ∨ s = 429) := by
    intro s h now
    simp only [parseResponseError]
    rcases Nat.lt_or_ge s 500 with hs | hs
    · by_cases h429 : s = 429
      all_goals simp [h429]
      all_goals omega
    · have h1 : s ≠ 401 := by omega
      have h2 : s ≠ 403 := by omega
      simp [h1, h2, hs]
  refine ⟨?_, hflag, rfl, fun _ => rfl, ?_⟩
  · rintro e a (⟨s, h, now, rfl⟩ | rfl | ⟨msg, rfl⟩)
    · simp only [defaultShouldRetry, GHLError.shouldRetryFlag, GHLError.statusCode,
        parseResponseError]
      rcases Nat.lt_or_ge s 500 with hs | hs
      · simp [Nat.not_le.mpr hs]
      · simp [hs]
        omega
    · rfl
    · rfl
  · intro h now a
    constructor
    all_goals simp [defaultShouldRetry, GHLError.shouldRetryFlag,
      GHLError.statusCode, parseResponseError]

/-- Witness for C6 (amended): the transport-flag agreement applied to the
concrete 429 error. -/
theorem claim_C6_default_predicate_witness :
    defaultShouldRetry (.http (parseResponseError 429 .absent 0)) 1 =
      (parseResponseError 429 .absent 0).shouldRetry :=
  claim_C6_default_predicate.1 (parseResponseError 429 .absent 0) 1
    (Or.inl ⟨429, .absent, 0, rfl⟩)

/-- Counterexample to **C9** as stated: for an integer `Retry-After` header
of `0` seconds, the claim's formula yields `0 × 1000 = 0` ms, but the code's
`if (!retryAfter)` truthiness check replaces the computed `0` with the
1000 ms default. -/
theorem claim_C9_counterexample :
    computeRetryAfter (.intVal 0) 0 ≠ specRetryAfter (.intVal 0) 0 := by
  decide

/-- **C9 (amended).** Every HTTP 429 transport error carries `retryAfter` in
milliseconds derived from the `Retry-After` header: an integer header value
is seconds × 1000 except that a value of 0 falls back to the 1000 ms
default; an HTTP-date header yields the time until that date when positive,
and otherwise (date not in the future) the 1000 ms default; an absent or
unparsable header defaults to 1000 ms. Non-429 errors carry no
`retryAfter`. -/
theorem claim_C9_retry_after :
    (∀ (n : Int) (now : Int), n ≠ 0 →
      computeRetryAfter (.intVal n) now = n * 1000) ∧
    (∀ now : Int, computeRetryAfter (.intVal 0) now = 1000) ∧
    (∀ t now : Int, now < t → computeRetryAfter (.dateVal t) now = t - now) ∧
    (∀ t now : Int, t ≤ now → computeRetryAfter (.dateVal t) now = 1000) ∧
    (∀ now : Int, computeRetryAfter .absent now = 1000) ∧
    (∀ now : Int, computeRetryAfter .unparsable now = 1000) ∧
    (∀ (h : RetryAfterHeader) (now : Int),
      (parseResponseError 429 h now).retryAfter = some (computeRetryAfter h now)) ∧
    (∀ (s : Nat) (h : RetryAfterHeader) (now : Int), s ≠ 429 →
      (parseResponseError s h now).retryAfter = none) := by
  refine ⟨fun n now hn => ?_, fun now => ?_, fun t now ht => ?_,
    fun t now ht => ?_, fun now => rfl, fun now => rfl,
    fun h now => by simp [parseResponseError], fun s h now hs => by simp [parseResponseError, hs]⟩
  · simp only [computeRetryAfter]
    have : n * 1000 ≠ 0 := by
      intro hz
      rcases mul_eq_zero.mp hz with h | h
      · exact hn h
      · norm_num at h
    simp [this]
  · simp [computeRetryAfter]
  · have h1 : max 0 (t - now) = t - now := by omega
    have h2 : t - now ≠ 0 := by omega
    simp [computeRetryAfter, h1, h2]
  · have h1 : max 0 (t - now) = 0 := by omega
    simp [computeRetryAfter, h1]

/-- Witness for C9 (amended): the integer-header case applied at 7 seconds. -/
theorem claim_C9_retry_after_witness :
    computeRetryAfter (.intVal 7) 0 = 7 * 1000 :=
  claim_C9_retry_after.1 7 0 (by decide)

/-- On an always-failing operation with an always-true predicate, the retry
loop entered at `attempt` with `rem` attempts remaining makes `rem + 1`
further invocations and ends with the error of the last one. -/
lemma withRetryLoop_allFail (fn : Nat → Except ε α) (err : Nat → ε)
    (cfg : RetryConfigL ε) (hfn : ∀ n, fn n = .error (err n))
    (hsr : ∀ e n, cfg.shouldRetry e n = true) :
    ∀ (rem attempt : Nat) (lastErr : Option ε) (log : List (ε × Nat × Nat)),
      (withRetryLoop fn cfg attempt rem lastErr log).result =
        .error (err (attempt + rem)) ∧
      (withRetryLoop fn cfg attempt rem lastErr log).calls = attempt + rem := by
  intro rem
  induction rem with
  | zero =>
    intro attempt lastErr log
    unfold withRetryLoop
    rw [hfn attempt]
    simp
  | succ rem' ih =>
    intro attempt lastErr log
    unfold withRetryLoop
    rw [hfn attempt]
    simp only [hsr, Bool.true_eq_false, if_false]
    have h := ih (attempt + 1) (some (err attempt))
      (if 1 < attempt then
        match lastErr with
        | some e => log ++ [(e, attempt - 1,
            calculateDelay (attempt - 1) cfg.initialDelay cfg.exponentialBase cfg.maxDelay)]
        | none => log
       else log)
    constructor
    · rw [h.1]
      ring_nf
    · rw [h.2]
      ring

/-- **C4.** For every retry policy with `maxRetries = m`: if the operation
fails on every invocation and the predicate always returns true, `withRetry`
invokes the operation exactly `m + 1` times and rethrows the error of the
last invocation; if the predicate returns false for the first failure,
`withRetry` invokes the operation exactly once (even when `m > 0`) and
rethrows that error — no error is ever swallowed. -/
theorem claim_C4_retry_attempts :
    (∀ (ε α : Type) (fn : Nat → Except ε α) (err : Nat → ε)
        (cfg : RetryConfigL ε),
      (∀ n, fn n = .error (err n)) → (∀ e n, cfg.shouldRetry e n = true) →
      (withRetryModel fn cfg).result = .error (err (cfg.maxRetries + 1)) ∧
      (withRetryModel fn cfg).calls = cfg.maxRetries + 1) ∧
    (∀ (ε α : Type) (fn : Nat → Except ε α) (e : ε) (cfg : RetryConfigL ε),
      fn 1 = .error e → cfg.shouldRetry e 1 = false →
      (withRetryModel fn cfg).result = .error e ∧
      (withRetryModel fn cfg).calls = 1) := by
  constructor
  · intro ε α fn err cfg hfn hsr
    have h := withRetryLoop_allFail fn err cfg hfn hsr cfg.maxRetries 1 none []
    rw [Nat.add_comm 1 cfg.maxRetries] at h
    exact h
  · intro ε α fn e cfg hfn hsr
    unfold withRetryModel withRetryLoop
    cases hm : cfg.maxRetries with
    | zero => simp [hfn]
    | succ m => simp [hfn, hsr]

/-- Witness for C4: a concrete always-failing operation with `maxRetries = 2`
runs 3 times and rethrows the last error; a predicate-false run stops at one
invocation. -/
theorem claim_C4_retry_attempts_witness :
    ((withRetryModel (fun n => (.error n : Except Nat Unit))
        ⟨2, 100, 250, 2, fun _ _ => true⟩).result = .error 3 ∧
      (withRetryModel (fun n => (.error n : Except Nat Unit))
        ⟨2, 100, 250, 2, fun _ _ => true⟩).calls = 3) ∧
    ((withRetryModel (fun n => (.error n : Except Nat Unit))
        ⟨2, 100, 250, 2, fun _ _ => false⟩).result = .error 1 ∧
      (withRetryModel (fun n => (.error n : Except Nat Unit))
        ⟨2, 100, 250, 2, fun _ _ => false⟩).calls = 1) :=
  ⟨claim_C4_retry_attempts.1 Nat Unit (fun n => .error n) (fun n => n)
      ⟨2, 100, 250, 2, fun _ _ => true⟩ (fun _ => rfl) (fun _ _ => rfl),
   claim_C4_retry_attempts.2 Nat Unit (fun n => .error n) 1
      ⟨2, 100, 250, 2, fun _ _ => false⟩ rfl rfl⟩

/-- JS `a || (a || b)` collapses to `a || b`. -/
lemma jsOrS_self_right (a b : Option String) : jsOrS a (jsOrS a b) = jsOrS a b := by
  unfold jsOrS
  by_cases h : strTruthy a = true <;> simp [h]

/-- **C10.** On every successful token refresh: if the token endpoint's
response omits `refresh_token` (JS-falsy), the new credential keeps the
previous refresh token; the new `expiresAt` equals completion time plus
`expires_in × 1000` ms; `clientId`, `clientSecret`, `redirectUri` and the
`onTokenRefresh` callback are carried over unchanged; and the callback, when
present, is invoked with the new access token, the resulting refresh token,
and the new `expiresAt`. -/
theorem claim_C10_refresh_success
    (st : ClientState) (old : OAuthAuth) (tk : TokenResp) (now : Nat)
    (hA : st.auth = .oauth old) (hP : refreshPrefix st = .ok ()) :
    (refreshTokenModel st (.ok tk) now).1 = .ok () ∧
    (refreshTokenModel st (.ok tk) now).2.auth = .oauth (newAuthOf old tk now) ∧
    (strTruthy tk.refresh_token = false →
      (newAuthOf old tk now).refreshToken = old.refreshToken) ∧
    (newAuthOf old tk now).expiresAt = some (now + tk.expires_in * 1000) ∧
    (newAuthOf old tk now).clientId = old.clientId ∧
    (newAuthOf old tk now).clientSecret = old.clientSecret ∧
    (newAuthOf old tk now).redirectUri = old.redirectUri ∧
    (newAuthOf old tk now).onTokenRefresh = old.onTokenRefresh ∧
    (∀ c, old.onTokenRefresh = some c →
      (refreshTokenModel st (.ok tk) now).2.callbackLog =
        st.callbackLog ++
          [{ callback := c
             accessToken := tk.access_token
             refreshToken := (newAuthOf old tk now).refreshToken
             expiresAt := now + tk.expires_in * 1000 }]) := by
  have hmodel : refreshTokenModel st (.ok tk) now =
      refreshContinue { st with exchangeCount := st.exchangeCount + 1 } (.ok tk) now := by
    unfold refreshTokenModel
    rw [hP]
  refine ⟨?_, ?_, ?_, rfl, rfl, rfl, rfl, rfl, ?_⟩
  · rw [hmodel]
    simp [refreshContinue, hA]
  · rw [hmodel]
    simp [refreshContinue, hA]
  · intro hf
    simp [newAuthOf, jsOrS, hf]
  · intro c hc
    rw [hmodel]
    have hcb : (newAuthOf old tk now).onTokenRefresh = some c := hc
    simp only [refreshContinue, hA, hcb]
    simp [newAuthOf, jsOrS_self_right]

/-- Witness for C10: a concrete refresh where the endpoint omits
`refresh_token`; the old refresh token survives and the callback receives it. -/
theorem claim_C10_refresh_success_witness :
    (refreshTokenModel
      ⟨.oauth ⟨"at", some "rt", some 1000, some "cid", some "sec", some "ru", some 7⟩,
        true, [], 0⟩
      (.ok ⟨"at2", none, 3600⟩) 5000).1 = .ok () ∧
    (refreshTokenModel
      ⟨.oauth ⟨"at", some "rt", some 1000, some "cid", some "sec", some "ru", some 7⟩,
        true, [], 0⟩
      (.ok ⟨"at2", none, 3600⟩) 5000).2.auth =
      .oauth (newAuthOf ⟨"at", some "rt", some 1000, some "cid", some "sec", some "ru", some 7⟩
        ⟨"at2", none, 3600⟩ 5000) := by
  have h := claim_C10_refresh_success
    ⟨.oauth ⟨"at", some "rt", some 1000, some "cid", some "sec", some "ru", some 7⟩,
      true, [], 0⟩
    ⟨"at", some "rt", some 1000, some "cid", some "sec", some "ru", some 7⟩
    ⟨"at2", none, 3600⟩ 5000 rfl rfl
  exact ⟨h.1, h.2.1⟩

/-- `Map.set` makes the key retrievable with the new value. -/
lemma mapGet_mapSet_self (m : List (String × β)) (k : String) (v : β) :
    mapGet (mapSet m k v) k = some v := by
  unfold mapGet mapSet
  cases hf : m.find? (fun p => p.1 = k) with
  | none =>
    simp [hf]
  | some q =>
    have hq : q.1 = k := by
      have := List.find?_some hf
      exact of_decide_eq_true this
    simp only [hf, Option.isSome_some, if_true, List.find?_map]
    have hcomp : ((fun p : String × β => decide (p.1 = k)) ∘
        (fun p => if p.1 = k then (k, v) else p)) = fun p => decide (p.1 = k) := by
      funext p
      by_cases h : p.1 = k
      all_goals simp [h]
    rw [hcomp, hf]
    simp [hq]

/-- `Map.delete` removes the key. -/
lemma mapGet_mapDelete_self (m : List (String × β)) (k : String) :
    mapGet (mapDelete m k) k = none := by
  unfold mapGet mapDelete
  have hnone : (m.filter fun p => p.1 ≠ k).find? (fun p => p.1 = k) = none := by
    rw [List.find?_eq_none]
    intro x hx
    have hne : x.1 ≠ k := by simpa using (List.mem_filter.mp hx).2
    simp [hne]
  rw [hnone]
  rfl

/-- When the key is absent, `Map.set` appends the binding. -/
lemma mapSet_of_not_mem (m : List (String × β)) (k : String) (v : β)
    (h : k ∉ m.map Prod.fst) : mapSet m k v = m ++ [(k, v)] := by
  unfold mapSet
  have hf : m.find? (fun p => p.1 = k) = none := by
    rw [List.find?_eq_none]
    intro p hp
    simp only [decide_eq_true_eq]
    intro hk
    exact h (List.mem_map.mpr ⟨p, hp, hk⟩)
  simp [hf]

/-- Folding `Map.set` over pipelines with pairwise-distinct ids, starting
from an accumulator whose keys avoid those ids, appends the bindings in
order. -/
lemma buildPipelinesMap_go (ps : List Pipeline) :
    ∀ acc : List (String × Pipeline),
      ((acc.map Prod.fst) ++ ps.map Pipeline.id).Nodup →
      ps.foldl (fun m p => mapSet m p.id p) acc = acc ++ ps.map (fun p => (p.id, p)) := by
  induction ps with
  | nil =>
    intro acc _
    simp
  | cons p ps ih =>
    intro acc hnd
    have hid : p.id ∉ acc.map Prod.fst := by
      intro hmem
      rcases List.nodup_append.mp hnd with ⟨_, _, hdisj⟩
      exact hdisj hmem (by simp)
    have hstep : mapSet acc p.id p = acc ++ [(p.id, p)] := mapSet_of_not_mem _ _ _ hid
    have hnd' : (((acc ++ [(p.id, p)]).map Prod.fst) ++ ps.map Pipeline.id).Nodup := by
      have : ((acc ++ [(p.id, p)]).map Prod.fst) ++ ps.map Pipeline.id =
          (acc.map Prod.fst) ++ ((p :: ps).map Pipeline.id) := by
        simp
      rw [this]
      exact hnd
    calc (p :: ps).foldl (fun m q => mapSet m q.id q) acc
        = ps.foldl (fun m q => mapSet m q.id q) (acc ++ [(p.id, p)]) := by
          rw [List.foldl_cons, hstep]
      _ = (acc ++ [(p.id, p)]) ++ ps.map (fun q => (q.id, q)) := ih _ hnd'
      _ = acc ++ (p :: ps).map (fun q => (q.id, q)) := by simp

/-- **C7.** For every location key: a first `loadPipelinesCache` call (no
cached entry) issues exactly one fetch and stores the resulting map — keyed
by pipeline id, in API response order — with the current timestamp; a second
call while `now − fetchedAt < 3 600 000` ms returns the stored map with zero
fetches and no state change; an entry with `now − fetchedAt ≥ 3 600 000` ms
is treated as absent and a fresh fetch replaces it wholesale; and after
`clearPipelineCache(locId)` the entry is gone, so the next call for that key
fetches again. -/
theorem claim_C7_pipeline_cache :
    (∀ (st : OppState) (loc : String) (now : Nat) (env : List Pipeline),
      mapGet st.pipelineCache loc = none →
      loadPipelinesCacheModel st loc now env =
        (buildPipelinesMap env,
         ⟨mapSet st.pipelineCache loc ⟨buildPipelinesMap env, now⟩, st.fetchCount + 1⟩)) ∧
    (∀ (st : OppState) (loc : String) (now : Nat) (env : List Pipeline)
        (entry : PipelineCacheEntry),
      mapGet st.pipelineCache loc = some entry → now - entry.timestamp < CACHE_TTL →
      loadPipelinesCacheModel st loc now env = (entry.pipelines, st)) ∧
    (∀ (st : OppState) (loc : String) (now : Nat) (env : List Pipeline)
        (entry : PipelineCacheEntry),
      mapGet st.pipelineCache loc = some entry → CACHE_TTL ≤ now - entry.timestamp →
      loadPipelinesCacheModel st loc now env =
        (buildPipelinesMap env,
         ⟨mapSet st.pipelineCache loc ⟨buildPipelinesMap env, now⟩, st.fetchCount + 1⟩)) ∧
    (∀ (st : OppState) (loc : String) (now now' : Nat) (env env' : List Pipeline),
      mapGet st.pipelineCache loc = none → now' - now < CACHE_TTL →
      loadPipelinesCacheModel (loadPipelinesCacheModel st loc now env).2 loc now' env' =
        (buildPipelinesMap env, (loadPipelinesCacheModel st loc now env).2)) ∧
    (∀ (st : OppState) (loc : String),
      mapGet (clearPipelineCacheModel st (some loc)).pipelineCache loc = none) ∧
    (∀ (st : OppState) (loc : String) (now : Nat) (env : List Pipeline),
      (loadPipelinesCacheModel (clearPipelineCacheModel st (some loc)) loc now
        env).2.fetchCount = st.fetchCount + 1) ∧
    (∀ env : List Pipeline, (env.map Pipeline.id).Nodup →
      buildPipelinesMap env = env.map (fun p => (p.id, p))) := by
  have hmiss : ∀ (st : OppState) (loc : String) (now : Nat) (env : List Pipeline),
      mapGet st.pipelineCache loc = none →
      loadPipelinesCacheModel st loc now env =
        (buildPipelinesMap env,
         ⟨mapSet st.pipelineCache loc ⟨buildPipelinesMap env, now⟩, st.fetchCount + 1⟩) := by
    intro st loc now env h
    unfold loadPipelinesCacheModel
    rw [h]
  have hhit : ∀ (st : OppState) (loc : String) (now : Nat) (env : List Pipeline)
      (entry : PipelineCacheEntry),
      mapGet st.pipelineCache loc = some entry → now - entry.timestamp < CACHE_TTL →
      loadPipelinesCacheModel st loc now env = (entry.pipelines, st) := by
    intro st loc now env entry h hfresh
    unfold loadPipelinesCacheModel
    rw [h]
    simp [hfresh]
  refine ⟨hmiss, hhit, ?_, ?_, ?_, ?_, ?_⟩
  · intro st loc now env entry h hstale
    unfold loadPipelinesCacheModel
    rw [h]
    simp [Nat.not_lt.mpr hstale]
  · intro st loc now now' env env' h hfresh
    rw [hmiss st loc now env h]
    exact hhit _ _ _ _ ⟨buildPipelinesMap env, now⟩ (mapGet_mapSet_self _ _ _) hfresh
  · intro st loc
    exact mapGet_mapDelete_self _ _
  · intro st loc now env
    rw [hmiss _ loc now env (mapGet_mapDelete_self _ _)]
    simp [clearPipelineCacheModel]
  · intro env hnd
    have := buildPipelinesMap_go env [] (by simpa using hnd)
    simpa [buildPipelinesMap] using this

/-- Witness for C7: a concrete first call on an empty cache fetches once and
stores the singleton pipeline map. -/
theorem claim_C7_pipeline_cache_witness :
    loadPipelinesCacheModel ⟨[], 0⟩ "loc-123" 42 [⟨"p1", "Sales", []⟩] =
      (buildPipelinesMap [⟨"p1", "Sales", []⟩],
       ⟨mapSet [] "loc-123" ⟨buildPipelinesMap [⟨"p1", "Sales", []⟩], 42⟩, 1⟩) :=
  claim_C7_pipeline_cache.1 ⟨[], 0⟩ "loc-123" 42 [⟨"p1", "Sales", []⟩] rfl

/-- A failed refresh never mutates the credential or invokes the callback. -/
lemma refreshTokenModel_error (st : ClientState) (env : Except String TokenResp)
    (now : Nat) (m : String) (h : (refreshTokenModel st env now).1 = .error m) :
    (refreshTokenModel st env now).2.auth = st.auth ∧
    (refreshTokenModel st env now).2.callbackLog = st.callbackLog := by
  unfold refreshTokenModel at h ⊢
  cases hp : refreshPrefix st with
  | error m' => exact ⟨rfl, rfl⟩
  | ok u =>
    cases u
    rw [hp] at h
    cases env with
    | error m' => simp [refreshContinue]
    | ok tk =>
      exfalso
      cases ha : st.auth with
      | oauth old => simp [refreshContinue, ha] at h
      | apiKey k => simp [refreshContinue, ha] at h

/-- A successful refresh issues exactly one token-exchange request. -/
lemma refreshTokenModel_ok_count (st : ClientState) (env : Except String TokenResp)
    (now : Nat) (h : (refreshTokenModel st env now).1 = .ok ()) :
    (refreshTokenModel st env now).2.exchangeCount = st.exchangeCount + 1 := by
  unfold refreshTokenModel at h ⊢
  cases hp : refreshPrefix st with
  | error m' =>
    rw [hp] at h
    simp at h
  | ok u =>
    cases u
    cases env with
    | error m' => simp [refreshContinue]
    | ok tk =>
      cases ha : st.auth with
      | oauth old => simp [refreshContinue, ha]
      | apiKey k => simp [refreshContinue, ha]

/-- `ensureValidToken` is a no-op when the token is not expired. -/
lemma ensureValidTokenSeq_notExpired (st : ClientState) (env : Except String TokenResp)
    (now : Nat) (h : clientIsTokenExpired now st.auth = false) :
    ensureValidTokenSeq st env now = (.ok (), st) := by
  unfold ensureValidTokenSeq
  by_cases ho : isOAuthAuth st.auth = false
  · simp [ho]
  · simp [ho, h]

/-- **C2.** Every failing refresh — non-OAuth credential, uninitialized OAuth
client, missing refresh token, or failed token-exchange call — makes
`ensureValidToken` throw a descriptive error while the previously active
credential stays active with no partial mutation; and the in-flight handle is
cleared before the error propagates, so a subsequent `ensureValidToken` call
may start a new refresh. The first four parts settle the four failure
conditions of `refreshToken`; the fifth shows failure propagation through
`ensureValidToken` leaves the credential untouched; the last parts run the
concurrency model on a failing exchange: the starter finishes with the
error, the handle is `false`, the credential unchanged — and a subsequent
caller starts a second token-exchange request. -/
theorem claim_C2_refresh_failure :
    (∀ (st : ClientState) (k : String) (env : Except String TokenResp) (now : Nat),
      st.auth = .apiKey k →
      refreshTokenModel st env now =
        (.error "Cannot refresh token: not using OAuth authentication", st)) ∧
    (∀ (st : ClientState) (o : OAuthAuth) (env : Except String TokenResp) (now : Nat),
      st.auth = .oauth o → st.oauthClientPresent = false →
      refreshTokenModel st env now =
        (.error "Cannot refresh token: OAuth client not initialized", st)) ∧
    (∀ (st : ClientState) (o : OAuthAuth) (env : Except String TokenResp) (now : Nat),
      st.auth = .oauth o → st.oauthClientPresent = true →
      strTruthy o.refreshToken = false →
      refreshTokenModel st env now =
        (.error "Cannot refresh token: no refresh token available", st)) ∧
    (∀ (st : ClientState) (m : String) (now : Nat),
      refreshPrefix st = .ok () →
      (refreshTokenModel st (.error m) now).1 = .error m ∧
      (refreshTokenModel st (.error m) now).2.auth = st.auth ∧
      (refreshTokenModel st (.error m) now).2.callbackLog = st.callbackLog) ∧
    (∀ (st : ClientState) (env : Except String TokenResp) (now : Nat) (m : String),
      (ensureValidTokenSeq st env now).1 = .error m →
      (ensureValidTokenSeq st env now).2.auth = st.auth ∧
      (ensureValidTokenSeq st env now).2.callbackLog = st.callbackLog) ∧
    (let old : OAuthAuth := ⟨"at", some "rt", some 1000, none, none, none, none⟩
     let env : Except String TokenResp := .error "Token refresh failed: boom"
     let s1 := runSys env 1000000 [.run .A, .resolve, .run .A] (sys0 old)
     s1.handle = false ∧ s1.cs.auth = .oauth old ∧
     s1.pcA = .done (.error "Token refresh failed: boom") ∧
     s1.cs.exchangeCount = 1 ∧
     (runSys env 1000000 [.run .B] s1).cs.exchangeCount = 2 ∧
     (runSys env 1000000 [.run .B] s1).pending = true) := by
  refine ⟨?_, ?_, ?_, ?_, ?_, ?_⟩
  · intro st k env now h
    unfold refreshTokenModel refreshPrefix
    rw [h]
  · intro st o env now hA hC
    simp [refreshTokenModel, refreshPrefix, hA, hC]
  · intro st o env now hA hC hT
    simp [refreshTokenModel, refreshPrefix, hA, hC, hT]
  · intro st m now hP
    unfold refreshTokenModel
    rw [hP]
    exact ⟨rfl, rfl, rfl⟩
  · intro st env now m h
    unfold ensureValidTokenSeq at *
    by_cases ho : isOAuthAuth st.auth = false
    · rw [if_pos ho] at h
      simp at h
    · rw [if_neg ho] at h ⊢
      by_cases he : clientIsTokenExpired now st.auth = false
      · rw [if_pos he] at h
        simp at h
      · rw [if_neg he] at h ⊢
        exact refreshTokenModel_error st env now m h
  · exact ⟨rfl, rfl, rfl, rfl, rfl, rfl⟩

/-- Witness for C2: the missing-refresh-token failure at a concrete state. -/
theorem claim_C2_refresh_failure_witness :
    refreshTokenModel
      ⟨.oauth ⟨"at", none, some 1000, none, none, none, none⟩, true, [], 0⟩
      (.ok ⟨"x", none, 10⟩) 0 =
      (.error "Cannot refresh token: no refresh token available",
       ⟨.oauth ⟨"at", none, some 1000, none, none, none, none⟩, true, [], 0⟩) :=
  claim_C2_refresh_failure.2.2.1
    ⟨.oauth ⟨"at", none, some 1000, none, none, none, none⟩, true, [], 0⟩
    ⟨"at", none, some 1000, none, none, none, none⟩ (.ok ⟨"x", none, 10⟩) 0
    rfl rfl rfl

/-- **C3.** For every operation dispatched through `client.withRetry` (token
valid at entry, so the leading `ensureValidToken` is a no-op): a first
dispatch failing with a non-401 status, or with a non-OAuth credential,
propagates unchanged with no refresh; a 401 failure with an OAuth credential
and an initialized OAuth client triggers exactly one forced refresh
(bypassing the expiry check — no expiry hypothesis is needed) and exactly
one re-dispatch whose result — success or failure — is returned with no
further refresh attempts; and if the forced refresh itself fails, that
error propagates. -/
theorem claim_C3_401_refresh_retry
    (st : ClientState) (cfg? : Option (RetryConfigL GHLError))
    (op : Nat → Except GHLError α) (env : Except String TokenResp) (now : Nat)
    (hNE : clientIsTokenExpired now st.auth = false) :
    (∀ (e : GHLError) (n1 : Nat), clientDispatch cfg? op 0 = (.error e, n1) →
      e.statusCode ≠ some 401 →
      clientWithRetry st cfg? op env now = (.error e, st, n1)) ∧
    (∀ (e : GHLError) (n1 : Nat), clientDispatch cfg? op 0 = (.error e, n1) →
      isOAuthAuth st.auth = false →
      clientWithRetry st cfg? op env now = (.error e, st, n1)) ∧
    (∀ (e : GHLError) (n1 : Nat) (st'' : ClientState),
      clientDispatch cfg? op 0 = (.error e, n1) →
      e.statusCode = some 401 → isOAuthAuth st.auth = true →
      st.oauthClientPresent = true →
      refreshTokenModel st env now = (.ok (), st'') →
      clientWithRetry st cfg? op env now =
        ((clientDispatch cfg? op n1).1, st'', n1 + (clientDispatch cfg? op n1).2) ∧
      st''.exchangeCount = st.exchangeCount + 1) ∧
    (∀ (e : GHLError) (n1 : Nat) (m : String) (st'' : ClientState),
      clientDispatch cfg? op 0 = (.error e, n1) →
      e.statusCode = some 401 → isOAuthAuth st.auth = true →
      st.oauthClientPresent = true →
      refreshTokenModel st env now = (.error m, st'') →
      clientWithRetry st cfg? op env now = (.error (.generic m), st'', n1)) := by
  have hEns := ensureValidTokenSeq_notExpired st env now hNE
  refine ⟨?_, ?_, ?_, ?_⟩
  · intro e n1 hd h401
    unfold clientWithRetry
    rw [hEns, hd]
    simp [h401]
  · intro e n1 hd ho
    unfold clientWithRetry
    rw [hEns, hd]
    simp [ho]
  · intro e n1 st'' hd h401 ho hp hr
    constructor
    · unfold clientWithRetry
      rw [hEns, hd]
      rcases hd2 : clientDispatch cfg? op n1 with ⟨r2, n2⟩
      simp [h401, ho, hp, hr, hd2]
    · have := refreshTokenModel_ok_count st env now (by rw [hr])
      rw [hr] at this
      exact this
  · intro e n1 m st'' hd h401 ho hp hr
    unfold clientWithRetry
    rw [hEns, hd]
    simp [h401, ho, hp, hr]

/-- Witness for C3: a concrete 401 followed by a successful refresh and a
successful re-dispatch: the second dispatch's success is returned and
exactly one exchange was issued. -/
theorem claim_C3_401_refresh_retry_witness :
    clientWithRetry (α := Nat)
      ⟨.oauth ⟨"at", some "rt", none, none, none, none, none⟩, true, [], 0⟩
      none
      (fun n => if n = 1 then .error (.http (parseResponseError 401 .absent 0)) else .ok 5)
      (.ok ⟨"at2", some "rt2", 3600⟩) 0 =
      ((clientDispatch (α := Nat) none
          (fun n => if n = 1 then .error (.http (parseResponseError 401 .absent 0)) else .ok 5) 1).1,
       (refreshTokenModel
          ⟨.oauth ⟨"at", some "rt", none, none, none, none, none⟩, true, [], 0⟩
          (.ok ⟨"at2", some "rt2", 3600⟩) 0).2,
       1 + (clientDispatch (α := Nat) none
          (fun n => if n = 1 then .error (.http (parseResponseError 401 .absent 0)) else .ok 5) 1).2) :=
  ((claim_C3_401_refresh_retry
      ⟨.oauth ⟨"at", some "rt", none, none, none, none, none⟩, true, [], 0⟩
      none
      (fun n => if n = 1 then .error (.http (parseResponseError 401 .absent 0)) else .ok 5)
      (.ok ⟨"at2", some "rt2", 3600⟩) 0 rfl).2.2.1
    (.http (parseResponseError 401 .absent 0)) 1
    (refreshTokenModel
      ⟨.oauth ⟨"at", some "rt", none, none, none, none, none⟩, true, [], 0⟩
      (.ok ⟨"at2", some "rt2", 3600⟩) 0).2
    rfl rfl rfl rfl rfl).1

/-! ### Single-flight refresh: reachable-state analysis -/

/-- The other caller. -/
def Who.other : Who → Who
  | .A => .B
  | .B => .A

/-- Client state after the starter issued the token-exchange request. -/
def csMid (old : OAuthAuth) : ClientState :=
  { cs0 old with exchangeCount := 1 }

/-- System state after exactly one caller (`w`) ran its first segment from
`sys0`: `w` started the refresh and awaits its own promise; the exchange is
pending; the other caller has not run yet. -/
def sysStarted1 (old : OAuthAuth) : Who → Sys
  | .A => { cs := csMid old, handle := true, pending := true, promiseResult := none,
            pcA := .awaitOwn, pcB := .start }
  | .B => { cs := csMid old, handle := true, pending := true, promiseResult := none,
            pcA := .start, pcB := .awaitOwn }

/-- System state after both callers ran their first segments (starter `w`):
the second caller found the handle set and awaits the same promise. -/
def sysStarted2 (old : OAuthAuth) : Who → Sys
  | .A => { cs := csMid old, handle := true, pending := true, promiseResult := none,
            pcA := .awaitOwn, pcB := .awaitShared }
  | .B => { cs := csMid old, handle := true, pending := true, promiseResult := none,
            pcA := .awaitShared, pcB := .awaitOwn }

/-- System states after the exchange resolved (starter `w`): the refresh
continuation has run, each caller may or may not have resumed, and the
handle is cleared exactly when the starter has resumed (its `finally`). -/
def sysPost (old : OAuthAuth) (env : Except String TokenResp) (now : Nat)
    (ownerDone otherDone : Bool) : Who → Sys :=
  fun w =>
    let r := (refreshContinue (csMid old) env now).1
    let cs2 := (refreshContinue (csMid old) env now).2
    match w with
    | .A => { cs := cs2, handle := !ownerDone, pending := false, promiseResult := some r,
              pcA := if ownerDone then .done r else .awaitOwn,
              pcB := if otherDone then .done r else .awaitShared }
    | .B => { cs := cs2, handle := !ownerDone, pending := false, promiseResult := some r,
              pcA := if otherDone then .done r else .awaitShared,
              pcB := if ownerDone then .done r else .awaitOwn }

/-- States reachable from `sys0` before the exchange resolves. -/
def Phase1 (old : OAuthAuth) (s : Sys) : Prop :=
  s = sys0 old ∨ (∃ w, s = sysStarted1 old w) ∨ (∃ w, s = sysStarted2 old w)

/-- States reachable once both callers have started (starter `w`). -/
def Phase2 (old : OAuthAuth) (env : Except String TokenResp) (now : Nat)
    (w : Who) (s : Sys) : Prop :=
  s = sysStarted2 old w ∨ ∃ a b, s = sysPost old env now a b w

/-- The refresh continuation never issues a further exchange request. -/
lemma refreshContinue_exchangeCount (st : ClientState) (env : Except String TokenResp)
    (now : Nat) : (refreshContinue st env now).2.exchangeCount = st.exchangeCount := by
  cases env with
  | error m => rfl
  | ok tk =>
    cases ha : st.auth with
    | oauth old => simp [refreshContinue, ha]
    | apiKey k => simp [refreshContinue, ha]

/-- A caller's first segment from `sys0` makes it the starter. -/
lemma stepL_sys0_run (old : OAuthAuth) (env : Except String TokenResp) (now : Nat)
    (w : Who) (hExp : clientIsTokenExpired now (.oauth old) = true)
    (hT : strTruthy old.refreshToken = true) :
    stepL env now (.run w) (sys0 old) = sysStarted1 old w := by
  cases w
  all_goals
    simp [stepL, Sys.pc, runStart, sys0, cs0, sysStarted1, csMid, isOAuthAuth,
      refreshPrefix, hExp, hT, Sys.setPC]

/-- The starter awaiting an unsettled promise does not move. -/
lemma stepL_started1_run_same (old : OAuthAuth) (env : Except String TokenResp)
    (now : Nat) (w : Who) :
    stepL env now (.run w) (sysStarted1 old w) = sysStarted1 old w := by
  cases w
  all_goals rfl

/-- The second caller's first segment finds the handle set and attaches to
the same promise. -/
lemma stepL_started1_run_other (old : OAuthAuth) (env : Except String TokenResp)
    (now : Nat) (w : Who) (hExp : clientIsTokenExpired now (.oauth old) = true) :
    stepL env now (.run (Who.other w)) (sysStarted1 old w) = sysStarted2 old w := by
  cases w
  all_goals
    simp [stepL, Sys.pc, Who.other, runStart, sysStarted1, sysStarted2, csMid, cs0,
      isOAuthAuth, hExp, Sys.setPC]

/-- With both callers awaiting an unsettled promise, `run` steps are no-ops. -/
lemma stepL_started2_run (old : OAuthAuth) (env : Except String TokenResp)
    (now : Nat) (w v : Who) :
    stepL env now (.run v) (sysStarted2 old w) = sysStarted2 old w := by
  cases w
  all_goals cases v
  all_goals rfl

/-- Settling the exchange runs the refresh continuation exactly once. -/
lemma stepL_started2_resolve (old : OAuthAuth) (env : Except String TokenResp)
    (now : Nat) (w : Who) :
    stepL env now .resolve (sysStarted2 old w) = sysPost old env now false false w := by
  cases w
  all_goals simp [stepL, sysStarted2, sysPost]

/-- A second `resolve` is a no-op: nothing is pending any more. -/
lemma stepL_post_resolve (old : OAuthAuth) (env : Except String TokenResp)
    (now : Nat) (a b : Bool) (w : Who) :
    stepL env now .resolve (sysPost old env now a b w) = sysPost old env now a b w := by
  cases w
  all_goals rfl

/-- The starter's resumption runs its `finally` (clearing the handle) and
finishes with the settled result; once done it never moves again. -/
lemma stepL_post_run_owner (old : OAuthAuth) (env : Except String TokenResp)
    (now : Nat) (a b : Bool) (w : Who) :
    stepL env now (.run w) (sysPost old env now a b w) =
      sysPost old env now true b w := by
  cases w
  all_goals cases a
  all_goals simp [stepL, sysPost, Sys.pc, Sys.setPC]

/-- The attached caller's resumption finishes with the same settled result. -/
lemma stepL_post_run_other (old : OAuthAuth) (env : Except String TokenResp)
    (now : Nat) (a b : Bool) (w : Who) :
    stepL env now (.run (Who.other w)) (sysPost old env now a b w) =
      sysPost old env now a true w := by
  cases w
  all_goals cases b
  all_goals simp [stepL, sysPost, Sys.pc, Sys.setPC, Who.other]

/-- One resolve-free step preserves `Phase1`, never resets a caller to
`start`, and leaves the caller who just ran past `start`. -/
lemma phase1_step_facts (old : OAuthAuth) (env : Except String TokenResp) (now : Nat)
    (hExp : clientIsTokenExpired now (.oauth old) = true)
    (hT : strTruthy old.refreshToken = true)
    (s : Sys) (hs : Phase1 old s) (l : SysLabel) (hl : l ≠ .resolve) :
    Phase1 old (stepL env now l s) ∧
    (∀ w, s.pc w ≠ .start → (stepL env now l s).pc w ≠ .start) ∧
    (∀ w, l = .run w → (stepL env now l s).pc w ≠ .start) := by
  cases l with
  | resolve => exact absurd rfl hl
  | run v =>
    rcases hs with rfl | ⟨u, rfl⟩ | ⟨u, rfl⟩
    · rw [stepL_sys0_run old env now v hExp hT]
      refine ⟨Or.inr (Or.inl ⟨v, rfl⟩), ?_, ?_⟩
      · intro w hw
        exfalso
        apply hw
        cases w
        all_goals rfl
      · intro w hw
        injection hw with hw
        subst hw
        cases v
        all_goals simp [sysStarted1, Sys.pc]
    · have hother : ∀ x : Who, x = u ∨ x = u.other := by
        intro x
        cases x
        all_goals cases u
        all_goals simp [Who.other]
      rcases hother v with rfl | rfl
      · rw [stepL_started1_run_same old env now v]
        refine ⟨Or.inr (Or.inl ⟨v, rfl⟩), fun w hw => hw, ?_⟩
        intro w hw
        injection hw with hw
        subst hw
        cases v
        all_goals simp [sysStarted1, Sys.pc]
      · rw [stepL_started1_run_other old env now u hExp]
        refine ⟨Or.inr (Or.inr ⟨u, rfl⟩), ?_, ?_⟩
        · intro w _
          cases u
          all_goals cases w
          all_goals simp [sysStarted2, Sys.pc]
        · intro w hw
          injection hw with hw
          subst hw
          cases u
          all_goals simp [sysStarted2, Sys.pc, Who.other]
    · rw [stepL_started2_run old env now u v]
      refine ⟨Or.inr (Or.inr ⟨u, rfl⟩), fun w hw => hw, ?_⟩
      intro w hw
      cases u
      all_goals cases w
      all_goals simp [sysStarted2, Sys.pc]

/-- Running any resolve-free schedule keeps the system in `Phase1`, and every
caller whose `run` label occurs in the schedule is past `start` afterwards. -/
lemma phase1_run (old : OAuthAuth) (env : Except String TokenResp) (now : Nat)
    (hExp : clientIsTokenExpired now (.oauth old) = true)
    (hT : strTruthy old.refreshToken = true) :
    ∀ (pre : List SysLabel), SysLabel.resolve ∉ pre → ∀ s, Phase1 old s →
      Phase1 old (runSys env now pre s) ∧
      (∀ w, s.pc w ≠ .start → (runSys env now pre s).pc w ≠ .start) ∧
      (∀ w, SysLabel.run w ∈ pre → (runSys env now pre s).pc w ≠ .start) := by
  intro pre
  induction pre with
  | nil =>
    intro _ s hs
    exact ⟨hs, fun _ hw => hw, fun w hw => absurd hw (List.not_mem_nil _)⟩
  | cons l ls ih =>
    intro hnr s hs
    have hl : l ≠ .resolve := fun h => hnr (h ▸ List.mem_cons_self l ls)
    have hnr' : SysLabel.resolve ∉ ls := fun h => hnr (List.mem_cons_of_mem l h)
    obtain ⟨f1, f2, f3⟩ := phase1_step_facts old env now hExp hT s hs l hl
    obtain ⟨g1, g2, g3⟩ := ih hnr' (stepL env now l s) f1
    refine ⟨g1, fun w hw => g2 w (f2 w hw), ?_⟩
    intro w hmem
    rcases List.mem_cons.mp hmem with heq | hmem'
    · exact g2 w (f3 w heq.symm)
    · exact g3 w hmem'

/-- A `Phase1` state with both callers past `start` is `sysStarted2`. -/
lemma phase1_both_started (old : OAuthAuth) (s : Sys) (hs : Phase1 old s)
    (hA : s.pcA ≠ .start) (hB : s.pcB ≠ .start) : ∃ w, s = sysStarted2 old w := by
  rcases hs with rfl | ⟨u, rfl⟩ | ⟨u, rfl⟩
  · exact absurd rfl hA
  · cases u
    · exact absurd rfl hB
    · exact absurd rfl hA
  · exact ⟨u, rfl⟩

/-- Every step preserves `Phase2`. -/
lemma phase2_step (old : OAuthAuth) (env : Except String TokenResp) (now : Nat)
    (w : Who) (s : Sys) (hs : Phase2 old env now w s) (l : SysLabel) :
    Phase2 old env now w (stepL env now l s) := by
  rcases hs with rfl | ⟨a, b, rfl⟩
  · cases l with
    | resolve =>
      rw [stepL_started2_resolve]
      exact Or.inr ⟨false, false, rfl⟩
    | run v =>
      rw [stepL_started2_run]
      exact Or.inl rfl
  · cases l with
    | resolve =>
      rw [stepL_post_resolve]
      exact Or.inr ⟨a, b, rfl⟩
    | run v =>
      have hother : v = w ∨ v = w.other := by
        cases v
        all_goals cases w
        all_goals simp [Who.other]
      rcases hother with rfl | rfl
      · rw [stepL_post_run_owner]
        exact Or.inr ⟨true, b, rfl⟩
      · rw [stepL_post_run_other]
        exact Or.inr ⟨a, true, rfl⟩

/-- Running any schedule preserves `Phase2`. -/
lemma phase2_run (old : OAuthAuth) (env : Except String TokenResp) (now : Nat)
    (w : Who) : ∀ (ls : List SysLabel) (s : Sys), Phase2 old env now w s →
      Phase2 old env now w (runSys env now ls s) := by
  intro ls
  induction ls with
  | nil => intro s hs; exact hs
  | cons l ls ih =>
    intro s hs
    exact ih (stepL env now l s) (phase2_step old env now w s hs l)

/-- In a `Phase2` state where both callers are done, both carry the refresh
outcome, the client state is the refresh continuation's, and the handle is
cleared. -/
lemma phase2_done (old : OAuthAuth) (env : Except String TokenResp) (now : Nat)
    (w : Who) (s : Sys) (hs : Phase2 old env now w s) (ra rb : Except String Unit)
    (hA : s.pcA = .done ra) (hB : s.pcB = .done rb) :
    ra = (refreshContinue (csMid old) env now).1 ∧
    rb = (refreshContinue (csMid old) env now).1 ∧
    s.cs = (refreshContinue (csMid old) env now).2 ∧
    s.handle = false := by
  rcases hs with rfl | ⟨a, b, rfl⟩
  · exfalso
    cases w
    · exact PC.noConfusion hA
    · exact PC.noConfusion hB
  · cases w
    · cases a with
      | false => exact absurd hA (by simp [sysPost])
      | true =>
        cases b with
        | false => exact absurd hB (by simp [sysPost])
        | true =>
          simp [sysPost] at hA hB
          exact ⟨hA.symm, hB.symm, rfl, rfl⟩
    · cases a with
      | false => exact absurd hB (by simp [sysPost])
      | true =>
        cases b with
        | false => exact absurd hA (by simp [sysPost])
        | true =>
          simp [sysPost] at hA hB
          exact ⟨hA.symm, hB.symm, rfl, rfl⟩

/-- With a truthy refresh token, the sequential refresh is exactly the
continuation applied after counting the one exchange request. -/
lemma refreshTokenModel_cs0 (old : OAuthAuth) (env : Except String TokenResp)
    (now : Nat) (hT : strTruthy old.refreshToken = true) :
    refreshTokenModel (cs0 old) env now = refreshContinue (csMid old) env now := by
  unfold refreshTokenModel refreshPrefix
  simp [cs0, csMid, hT]

/-- Replacing a task's program counter leaves the client state untouched. -/
lemma setPC_cs (s : Sys) (v : Who) (p : PC) : (s.setPC v p).cs = s.cs := by
  cases v
  all_goals rfl

/-- **C1.** While a token refresh is in flight (the in-flight handle is set),
no step of any caller issues a token-exchange request, and a concurrent
`ensureValidToken` call finding an expired OAuth token routes to awaiting
the same in-flight operation with no other effect; in particular, for every
interleaving in which two concurrent `ensureValidToken` calls both start
while the OAuth credential is expired (before the exchange resolves),
exactly one token-exchange call is issued and both callers observe the same
outcome — the single refresh's result and the same final credential state,
on success and on failure alike. -/
theorem claim_C1_single_flight :
    (∀ (env : Except String TokenResp) (now : Nat) (l : SysLabel) (s : Sys),
      s.handle = true →
      (stepL env now l s).cs.exchangeCount = s.cs.exchangeCount) ∧
    (∀ (env : Except String TokenResp) (now : Nat) (s : Sys) (w : Who),
      s.handle = true → s.pc w = .start → isOAuthAuth s.cs.auth = true →
      clientIsTokenExpired now s.cs.auth = true →
      stepL env now (.run w) s = s.setPC w .awaitShared) ∧
    (∀ (old : OAuthAuth) (env : Except String TokenResp) (now : Nat)
        (pre post : List SysLabel),
      clientIsTokenExpired now (.oauth old) = true →
      strTruthy old.refreshToken = true →
      SysLabel.resolve ∉ pre → SysLabel.run .A ∈ pre → SysLabel.run .B ∈ pre →
      ∀ ra rb : Except String Unit,
        (runSys env now (pre ++ post) (sys0 old)).pcA = .done ra →
        (runSys env now (pre ++ post) (sys0 old)).pcB = .done rb →
        ra = rb ∧ ra = (refreshTokenModel (cs0 old) env now).1 ∧
        (runSys env now (pre ++ post) (sys0 old)).cs =
          (refreshTokenModel (cs0 old) env now).2 ∧
        (runSys env now (pre ++ post) (sys0 old)).cs.exchangeCount = 1) := by
  refine ⟨?_, ?_, ?_⟩
  · intro env now l s hh
    cases l with
    | resolve =>
      by_cases hp : s.pending
      · simp [stepL, hp, refreshContinue_exchangeCount]
      · simp [stepL, hp]
    | run v =>
      cases hv : s.pc v with
      | start =>
        by_cases h1 : isOAuthAuth s.cs.auth = false
        · simp [stepL, hv, runStart, h1, setPC_cs]
        · by_cases h2 : clientIsTokenExpired now s.cs.auth = false
          · simp [stepL, hv, runStart, h1, h2, setPC_cs]
          · simp [stepL, hv, runStart, h1, h2, hh, setPC_cs]
      | awaitOwn =>
        cases hres : s.promiseResult with
        | some r => simp [stepL, hv, hres, setPC_cs]
        | none => simp [stepL, hv, hres]
      | awaitShared =>
        cases hres : s.promiseResult with
        | some r => simp [stepL, hv, hres, setPC_cs]
        | none => simp [stepL, hv, hres]
      | done r => simp [stepL, hv]
  · intro env now s w hh hpc ho hexp
    simp [stepL, hpc, runStart, ho, hexp, hh]
  · intro old env now pre post hExp hT hnr hmA hmB ra rb hA hB
    have hsplit : runSys env now (pre ++ post) (sys0 old) =
        runSys env now post (runSys env now pre (sys0 old)) := by
      simp [runSys, List.foldl_append]
    rw [hsplit] at hA hB ⊢
    obtain ⟨h1, _, h3⟩ :=
      phase1_run old env now hExp hT pre hnr (sys0 old) (Or.inl rfl)
    obtain ⟨w, hw⟩ := phase1_both_started old _ h1 (h3 .A hmA) (h3 .B hmB)
    have hph2 : Phase2 old env now w
        (runSys env now post (runSys env now pre (sys0 old))) := by
      refine phase2_run old env now w post _ ?_
      rw [hw]
      exact Or.inl rfl
    obtain ⟨e1, e2, e3, e4⟩ := phase2_done old env now w _ hph2 ra rb hA hB
    refine ⟨e1.trans e2.symm, ?_, ?_, ?_⟩
    · rw [refreshTokenModel_cs0 old env now hT]
      exact e1
    · rw [refreshTokenModel_cs0 old env now hT]
      exact e3
    · rw [e3, refreshContinue_exchangeCount]
      rfl

/-- Witness for C1: a concrete overlapping schedule — both callers start,
then the exchange resolves successfully, then both resume — yields the same
successful outcome for both, the refreshed client state, and exactly one
exchange. -/
theorem claim_C1_single_flight_witness :
    ((.ok () : Except String Unit) = .ok ()) ∧
    (.ok () : Except String Unit) =
      (refreshTokenModel (cs0 ⟨"a", some "r", some 1, none, none, none, none⟩)
        (.ok ⟨"a2", some "r2", 3600⟩) 1000000).1 ∧
    (runSys (.ok ⟨"a2", some "r2", 3600⟩) 1000000
        ([.run .A, .run .B] ++ [.resolve, .run .A, .run .B])
        (sys0 ⟨"a", some "r", some 1, none, none, none, none⟩)).cs =
      (refreshTokenModel (cs0 ⟨"a", some "r", some 1, none, none, none, none⟩)
        (.ok ⟨"a2", some "r2", 3600⟩) 1000000).2 ∧
    (runSys (.ok ⟨"a2", some "r2", 3600⟩) 1000000
        ([.run .A, .run .B] ++ [.resolve, .run .A, .run .B])
        (sys0 ⟨"a", some "r", some 1, none, none, none, none⟩)).cs.exchangeCount = 1 :=
  claim_C1_single_flight.2.2
    ⟨"a", some "r", some 1, none, none, none, none⟩
    (.ok ⟨"a2", some "r2", 3600⟩) 1000000
    [.run .A, .run .B] [.resolve, .run .A, .run .B]
    rfl rfl (by decide) (by decide) (by decide)
    (.ok ()) (.ok ()) rfl rfl

end GhlClient
